import Mathlib

/-!
Verification of the Web3 API type adapters of
`core/bin/zksync_api/src/api_server/web3/types.rs`.

The Rust source defines a custom string codec for the `BlockNumber` block
reference, builders producing Ethereum-shaped `Block` records, and adapters
from storage records (`Web3TxData`, `Web3TxReceipt`) to the wire records
`TxData` and `TransactionReceipt`.  This file embeds those definitions and
settles the specified properties.  Machine integers are modelled as `Nat`
(with an explicit `% 2 ^ 32` where Rust's `as u32` narrows), fixed-width
hashes as length-indexed byte lists, and the panicking `from_slice`
conversions as `Option`-valued functions.
-/

/-- A raw byte sequence as supplied by the storage layer (`Vec<u8>`). -/
abbrev Bytes := List Nat

/-- 32-byte hash (`web3::types::H256`). -/
abbrev H256 := { l : Bytes // l.length = 32 }

/-- 20-byte address (`web3::types::H160`, also `Address`). -/
abbrev H160 := { l : Bytes // l.length = 20 }

/-- 8-byte value (`web3::types::H64`). -/
abbrev H64 := { l : Bytes // l.length = 8 }

/-- 256-byte bloom filter (`web3::types::H2048`). -/
abbrev H2048 := { l : Bytes // l.length = 256 }

/-- Unsigned 64-bit wire quantity (`web3::types::U64`), modelled as `Nat`. -/
abbrev U64 := Nat

/-- Unsigned 256-bit wire quantity (`web3::types::U256`), modelled as `Nat`. -/
abbrev U256 := Nat

def H256.zero : H256 := ⟨List.replicate 32 0, List.length_replicate ..⟩

def H160.zero : H160 := ⟨List.replicate 20 0, List.length_replicate ..⟩

def H64.zero : H64 := ⟨List.replicate 8 0, List.length_replicate ..⟩

def H2048.zero : H2048 := ⟨List.replicate 256 0, List.length_replicate ..⟩

deriving instance DecidableEq for Except

/-- `H256::from_slice`: in Rust this panics unless the slice has exactly 32
bytes; the panic branch is modelled as `none`. -/
def H256.from_slice (l : Bytes) : Option H256 :=
  if h : l.length = 32 then some ⟨l, h⟩ else none

/-- `H160::from_slice`: in Rust this panics unless the slice has exactly 20
bytes; the panic branch is modelled as `none`. -/
def H160.from_slice (l : Bytes) : Option H160 :=
  if h : l.length = 20 then some ⟨l, h⟩ else none

/-- Block reference (`enum BlockNumber` in the source): five symbolic aliases
plus a concrete 64-bit block number. -/
inductive BlockNumber where
  | Committed
  | Finalized
  | Latest
  | Earliest
  | Pending
  | Number (n : U64)
deriving DecidableEq, Repr

/-- The `Serialize` impl for `BlockNumber`: each variant renders as a single
string; `Number(x)` renders like Rust's `0x` + lowercase minimal hexadecimal
(`Nat.toDigits 16` yields exactly that digit sequence, a single `0` for
zero). -/
def BlockNumber.serialize : BlockNumber → String
  | .Number x => String.mk ('0' :: 'x' :: Nat.toDigits 16 x)
  | .Committed => "committed"
  | .Finalized => "finalized"
  | .Latest => "latest"
  | .Earliest => "earliest"
  | .Pending => "pending"

/-- Hex value of one character, by byte range (decimal digits, lowercase
letters `a`-`f`, uppercase letters `A`-`F`); `none` otherwise. -/
def hexDigitVal (c : Char) : Option Nat :=
  if 48 ≤ c.toNat ∧ c.toNat ≤ 57 then some (c.toNat - 48)
  else if 97 ≤ c.toNat ∧ c.toNat ≤ 102 then some (c.toNat - 87)
  else if 65 ≤ c.toNat ∧ c.toNat ≤ 70 then some (c.toNat - 55)
  else none

/-- Big-endian accumulation of hex digits; `none` at the first non-hex
character. -/
def parseHexDigits (acc : Nat) : List Char → Option Nat
  | [] => some acc
  | c :: cs =>
    match hexDigitVal c with
    | some d => parseHexDigits (acc * 16 + d) cs
    | none => none

/-- Modelled from the spec: the string deserializer of the external `U64`
wire type (from the `web3`/`ethereum-types` dependency, whose code is not
part of this repository).  Per the spec it accepts a `0x`-prefixed or bare
hexadecimal 64-bit unsigned integer, and fails on malformed hex (an empty
digit sequence, as in `"0x"`, or a non-hex character) and on out-of-range
input (more than 16 hex digits). -/
def deserializeU64 (s : String) : Option U64 :=
  let ds := if s.data.take 2 = ['0', 'x'] then s.data.drop 2 else s.data
  if ds.length = 0 ∨ 16 < ds.length then none
  else parseHexDigits 0 ds

/-- The `visit_str` body of the `Deserialize` impl for `BlockNumber`: the
five alias literals map (case-sensitively, by exact `match`) to their
variants; any other string is handed to the `U64` string deserializer, whose
failure is propagated as a deserialization error carrying the offending
token. -/
def visit_str (s : String) : Except String BlockNumber :=
  if s = "committed" then .ok .Committed
  else if s = "finalized" then .ok .Finalized
  else if s = "latest" then .ok .Latest
  else if s = "earliest" then .ok .Earliest
  else if s = "pending" then .ok .Pending
  else
    match deserializeU64 s with
    | some n => .ok (.Number n)
    | none => .error s

example : visit_str "0x2a" = .ok (.Number 42) := by decide

example : visit_str "latest" = .ok .Latest := by decide

example : visit_str "0x" = .error "0x" := by decide

example : visit_str "Latest" = .error "Latest" := by decide

example : visit_str "2a" = .ok (.Number 42) := by decide

example : visit_str "0x10000000000000000" = .error "0x10000000000000000" := by
  decide

example : BlockNumber.serialize (.Number 42) = "0x2a" := by decide

example : BlockNumber.serialize (.Number 0) = "0x0" := by decide

example : BlockNumber.serialize .Pending = "pending" := by decide

/-- Storage-layer transaction projection (`Web3TxData`).  Modelled from the
spec: the record is declared in `zksync_storage` (not under the sources being
verified); per the spec it carries optional raw block hash/number/index,
sender and optional receiver addresses as raw byte sequences, a nonce and the
transaction hash, with the integer fields stored at 64-bit width. -/
structure Web3TxData where
  block_hash : Option Bytes
  block_number : Option Nat
  block_index : Option Nat
  from_account : Bytes
  to_account : Option Bytes
  nonce : Nat
  tx_hash : Bytes
deriving DecidableEq

/-- Storage-layer receipt projection (`Web3TxReceipt`).  Modelled from the
spec: the record is declared in `zksync_storage` (not under the sources being
verified); per the spec it carries a raw block hash, a block number, an
optional in-block index, the transaction hash and a boolean success flag. -/
structure Web3TxReceipt where
  tx_hash : Bytes
  block_index : Option Nat
  block_hash : Bytes
  block_number : Nat
  success : Bool
deriving DecidableEq

/-- API-facing transaction-location record (`struct TxData`).  The source
fields `from` and `to` are reserved words in Lean and are embedded as
`from_addr` and `to_addr`. -/
structure TxData where
  block_hash : Option H256
  block_number : Option Nat
  block_index : Option Nat
  from_addr : H160
  to_addr : Option H160
  nonce : Nat
  tx_hash : H256
deriving DecidableEq

/-- Rust's `as u32` narrowing cast on an unsigned 64-bit value: keeps the low
32 bits. -/
def u32_cast (n : Nat) : Nat := n % 2 ^ 32

/-- `tx.block_hash.map(|h| H256::from_slice(&h))`: a missing field stays
missing, while a panic of `from_slice` inside the closure propagates as
failure of the whole adapter. -/
def mapSlice32 : Option Bytes → Option (Option H256)
  | none => some none
  | some h => (H256.from_slice h).map some

/-- `tx.to_account.map(|to| H160::from_slice(&to))`, as `mapSlice32`. -/
def mapSlice20 : Option Bytes → Option (Option H160)
  | none => some none
  | some h => (H160.from_slice h).map some

/-- The `impl From<Web3TxData> for TxData` conversion; the panicking
`from_slice` calls make the embedding `Option`-valued. -/
def tx_data_from_storage (tx : Web3TxData) : Option TxData := do
  let bh ← mapSlice32 tx.block_hash
  let fa ← H160.from_slice tx.from_account
  let ta ← mapSlice20 tx.to_account
  let th ← H256.from_slice tx.tx_hash
  pure
    { block_hash := bh
      block_number := tx.block_number.map u32_cast
      block_index := tx.block_index.map u32_cast
      from_addr := fa
      to_addr := ta
      nonce := u32_cast tx.nonce
      tx_hash := th }

/-- Payload stand-in for `web3::types::Transaction`: the builder under
verification is generic in the transaction payload (`new_block<T>`) and never
inspects it, so only enough structure to form concrete values is kept. -/
structure Transaction where
  hash : H256
  nonce : U256
deriving DecidableEq

/-- Payload stand-in for `web3::types::Log`; receipts built here always carry
an empty log list. -/
structure Log where
  address : H160
  data : Bytes
deriving DecidableEq

/-- Ethereum-shaped block record (`web3::types::Block<TX>`), with exactly the
fields the source constructs. -/
structure Block (T : Type) where
  hash : Option H256
  parent_hash : H256
  uncles_hash : H256
  author : H160
  state_root : H256
  transactions_root : H256
  receipts_root : H256
  number : Option U64
  gas_used : U256
  gas_limit : U256
  extra_data : Bytes
  logs_bloom : Option H2048
  timestamp : U256
  difficulty : U256
  total_difficulty : Option U256
  seal_fields : List Bytes
  uncles : List H256
  transactions : List T
  size : Option U256
  mix_hash : Option H256
  nonce : Option H64
deriving DecidableEq

/-- `enum BlockInfo`: a block whose transaction list is either hashes or full
transaction bodies. -/
inductive BlockInfo where
  | BlockWithHashes (b : Block H256)
  | BlockWithTxs (b : Block Transaction)
deriving DecidableEq

/-- `BlockInfo::new_block`, the shared construction rule of both builders.
The `block_number` argument embeds `zksync_types::BlockNumber`, a `u32`
newtype whose value (`block_number.0`) is widened into the 64-bit `number`
field. -/
def BlockInfo.new_block {T : Type} (hash parent_hash : H256)
    (block_number timestamp : Nat) (transactions : List T) : Block T :=
  { hash := some hash
    parent_hash := parent_hash
    uncles_hash := H256.zero
    author := H160.zero
    state_root := hash
    transactions_root := hash
    receipts_root := hash
    number := some block_number
    gas_used := 0
    gas_limit := 50000
    extra_data := []
    logs_bloom := none
    timestamp := timestamp
    difficulty := 0
    total_difficulty := some 0
    seal_fields := []
    uncles := []
    transactions := transactions
    size := none
    mix_hash := some H256.zero
    nonce := some H64.zero }

/-- `BlockInfo::new_with_hashes`. -/
def BlockInfo.new_with_hashes (hash parent_hash : H256)
    (block_number timestamp : Nat) (transactions : List H256) : BlockInfo :=
  .BlockWithHashes (new_block hash parent_hash block_number timestamp transactions)

/-- `BlockInfo::new_with_txs`. -/
def BlockInfo.new_with_txs (hash parent_hash : H256)
    (block_number timestamp : Nat) (transactions : List Transaction) : BlockInfo :=
  .BlockWithTxs (new_block hash parent_hash block_number timestamp transactions)

/-- Ethereum-shaped transaction receipt (`web3::types::TransactionReceipt`),
with exactly the fields the source constructs. -/
structure TransactionReceipt where
  transaction_hash : H256
  transaction_index : U64
  block_hash : Option H256
  block_number : Option U64
  cumulative_gas_used : U256
  gas_used : Option U256
  contract_address : Option H160
  logs : List Log
  status : Option U64
  root : Option H256
  logs_bloom : H2048
deriving DecidableEq

/-- `U64::MAX`, the sentinel used for a missing in-block index. -/
def U64.MAX : U64 := 2 ^ 64 - 1

/-- `tx_receipt_from_storage_receipt`; the panicking `from_slice` calls make
the embedding `Option`-valued. -/
def tx_receipt_from_storage_receipt (tx : Web3TxReceipt) :
    Option TransactionReceipt := do
  let root_hash ← H256.from_slice tx.block_hash
  let h ← H256.from_slice tx.tx_hash
  pure
    { transaction_hash := h
      transaction_index := tx.block_index.getD U64.MAX
      block_hash := some root_hash
      block_number := some tx.block_number
      cumulative_gas_used := 0
      gas_used := some 0
      contract_address := none
      logs := []
      status := some (if tx.success then 1 else 0)
      root := some root_hash
      logs_bloom := H2048.zero }

example :
    (tx_receipt_from_storage_receipt
      { tx_hash := List.replicate 32 2
        block_index := none
        block_hash := List.replicate 32 1
        block_number := 7
        success := true }).map (fun r => (r.transaction_index, r.status)) =
    some (2 ^ 64 - 1, some 1) := by decide

example :
    (tx_data_from_storage
      { block_hash := none
        block_number := some (2 ^ 32 + 9)
        block_index := none
        from_account := List.replicate 20 3
        to_account := none
        nonce := 2 ^ 32 + 5
        tx_hash := List.replicate 32 4 }).map (fun t => (t.block_number, t.nonce)) =
    some (some 9, 5) := by decide

lemma hexDigitVal_digitChar_all : ∀ d < 16, hexDigitVal (Nat.digitChar d) = some d := by
  decide

/-- The sixteen characters of the lowercase hexadecimal alphabet. -/
def lowercaseHexAlphabet : List Char := "0123456789abcdef".data

lemma digitChar_mem_hex_all : ∀ d < 16, Nat.digitChar d ∈ lowercaseHexAlphabet := by
  decide

lemma digitChar_ne_zero_all : ∀ d < 16, d ≠ 0 → Nat.digitChar d ≠ '0' := by
  decide

lemma hexDigitVal_lt {c : Char} {d : Nat} (h : hexDigitVal c = some d) : d < 16 := by
  unfold hexDigitVal at h
  split_ifs at h <;> simp_all <;> omega

lemma parseHexDigits_append (acc : Nat) (xs ys : List Char) :
    parseHexDigits acc (xs ++ ys) =
      (parseHexDigits acc xs).bind fun a => parseHexDigits a ys := by
  induction xs generalizing acc with
  | nil => simp [parseHexDigits]
  | cons c cs ih =>
    cases h : hexDigitVal c with
    | none => simp [parseHexDigits, h]
    | some d => simp [parseHexDigits, h, ih]

lemma parseHexDigits_single (a : Nat) {c : Char} {d : Nat} (h : hexDigitVal c = some d) :
    parseHexDigits a [c] = some (a * 16 + d) := by
  simp [parseHexDigits, h]

lemma parseHexDigits_lt {l : List Char} :
    ∀ {acc n : Nat}, parseHexDigits acc l = some n → n < (acc + 1) * 16 ^ l.length := by
  induction l with
  | nil =>
    intro acc n h
    simp only [parseHexDigits, Option.some.injEq] at h
    simp only [List.length_nil, pow_zero, Nat.mul_one]
    omega
  | cons c cs ih =>
    intro acc n h
    cases hv : hexDigitVal c with
    | none => rw [parseHexDigits, hv] at h; exact absurd h (by simp)
    | some d =>
      rw [parseHexDigits, hv] at h
      have hd : d < 16 := hexDigitVal_lt hv
      calc n < (acc * 16 + d + 1) * 16 ^ cs.length := ih h
        _ ≤ ((acc + 1) * 16) * 16 ^ cs.length :=
            Nat.mul_le_mul_right _ (by omega)
        _ = (acc + 1) * 16 ^ (c :: cs).length := by
            rw [List.length_cons]; ring

lemma parseHexDigits_rev_map {l : List Nat} (hl : ∀ d ∈ l, d < 16) :
    ∀ acc : Nat, parseHexDigits acc ((l.map Nat.digitChar).reverse) =
      some (acc * 16 ^ l.length + Nat.ofDigits 16 l) := by
  induction l with
  | nil => intro acc; simp [parseHexDigits]
  | cons d t ih =>
    intro acc
    have hd : d < 16 := hl d (by simp)
    have ht : ∀ x ∈ t, x < 16 := fun x hx => hl x (by simp [hx])
    rw [List.map_cons, List.reverse_cons, parseHexDigits_append, ih ht acc,
      Option.some_bind, parseHexDigits_single _ (hexDigitVal_digitChar_all d hd)]
    rw [Nat.ofDigits_cons, List.length_cons]
    congr 1
    ring

lemma toDigitsCore_eq_digits :
    ∀ (fuel n : Nat) (ds : List Char), n < fuel → n ≠ 0 →
      Nat.toDigitsCore 16 fuel n ds =
        ((Nat.digits 16 n).map Nat.digitChar).reverse ++ ds := by
  intro fuel
  induction fuel with
  | zero => intro n ds h _; omega
  | succ fuel ih =>
    intro n ds hlt hn
    simp only [Nat.toDigitsCore]
    by_cases h16 : n / 16 = 0
    · rw [if_pos h16]
      have hdig : Nat.digits 16 n = [n % 16] := by
        rw [Nat.digits_def' (by norm_num : (1:Nat) < 16) (Nat.pos_of_ne_zero hn), h16,
          Nat.digits_zero]
      rw [hdig]
      simp
    · rw [if_neg h16]
      have hlt' : n / 16 < fuel :=
        lt_of_lt_of_le (Nat.div_lt_self (Nat.pos_of_ne_zero hn) (by norm_num))
          (Nat.lt_succ_iff.mp hlt)
      rw [ih (n / 16) _ hlt' h16,
        Nat.digits_def' (by norm_num : (1:Nat) < 16) (Nat.pos_of_ne_zero hn)]
      simp

lemma toDigits_eq_digits {n : Nat} (hn : n ≠ 0) :
    Nat.toDigits 16 n = ((Nat.digits 16 n).map Nat.digitChar).reverse := by
  have h := toDigitsCore_eq_digits (n + 1) n [] (Nat.lt_succ_self n) hn
  simpa [Nat.toDigits] using h

lemma digits16_len_le {n : Nat} (h : n < 2 ^ 64) : (Nat.digits 16 n).length ≤ 16 := by
  by_cases hn : n = 0
  · subst hn; simp
  by_contra hlen
  push_neg at hlen
  have hb := Nat.base_pow_length_digits_le 16 n (by norm_num) hn
  have h1 : (16 : Nat) * 16 ^ 16 ≤ 16 * n := by
    calc (16 : Nat) * 16 ^ 16 = 16 ^ 17 := by ring
      _ ≤ 16 ^ (Nat.digits 16 n).length := Nat.pow_le_pow_right (by norm_num) hlen
      _ ≤ 16 * n := hb
  have h2 : (16 : Nat) ^ 16 ≤ n := Nat.le_of_mul_le_mul_left h1 (by norm_num)
  have h3 : (2 : Nat) ^ 64 ≤ n := by
    calc (2 : Nat) ^ 64 = 16 ^ 16 := by norm_num
      _ ≤ n := h2
  omega

lemma deserializeU64_mk_hex (l : List Char) :
    deserializeU64 (String.mk ('0' :: 'x' :: l)) =
      if l.length = 0 ∨ 16 < l.length then none else parseHexDigits 0 l := rfl

lemma deserializeU64_serialized {n : Nat} (h : n < 2 ^ 64) :
    deserializeU64 (String.mk ('0' :: 'x' :: Nat.toDigits 16 n)) = some n := by
  by_cases hn : n = 0
  · subst hn; decide
  · have hne : Nat.digits 16 n ≠ [] := Nat.digits_ne_nil_iff_ne_zero.mpr hn
    have hlen : (Nat.digits 16 n).length ≤ 16 := digits16_len_le h
    have hdlt : ∀ d ∈ Nat.digits 16 n, d < 16 :=
      fun d hd => Nat.digits_lt_base (by norm_num) hd
    have hlz : (Nat.digits 16 n).length ≠ 0 := by
      simpa [List.length_eq_zero] using hne
    rw [toDigits_eq_digits hn, deserializeU64_mk_hex]
    rw [if_neg (by simp only [List.length_reverse, List.length_map]; omega)]
    rw [parseHexDigits_rev_map hdlt 0, Nat.ofDigits_digits]
    simp

lemma mk_cons_ne {c : Char} {l : List Char} {t : String}
    (hc : t.data.head? ≠ some c) : String.mk (c :: l) ≠ t := by
  intro h
  apply hc
  rw [← h]
  rfl

lemma mk_hex_ne_committed (l : List Char) : String.mk ('0' :: 'x' :: l) ≠ "committed" :=
  mk_cons_ne (by decide)

lemma mk_hex_ne_finalized (l : List Char) : String.mk ('0' :: 'x' :: l) ≠ "finalized" :=
  mk_cons_ne (by decide)

lemma mk_hex_ne_latest (l : List Char) : String.mk ('0' :: 'x' :: l) ≠ "latest" :=
  mk_cons_ne (by decide)

lemma mk_hex_ne_earliest (l : List Char) : String.mk ('0' :: 'x' :: l) ≠ "earliest" :=
  mk_cons_ne (by decide)

lemma mk_hex_ne_pending (l : List Char) : String.mk ('0' :: 'x' :: l) ≠ "pending" :=
  mk_cons_ne (by decide)

lemma visit_str_mk_hex (l : List Char) :
    visit_str (String.mk ('0' :: 'x' :: l)) =
      match deserializeU64 (String.mk ('0' :: 'x' :: l)) with
      | some n => .ok (.Number n)
      | none => .error (String.mk ('0' :: 'x' :: l)) := by
  rw [visit_str, if_neg (mk_hex_ne_committed l), if_neg (mk_hex_ne_finalized l),
    if_neg (mk_hex_ne_latest l), if_neg (mk_hex_ne_earliest l),
    if_neg (mk_hex_ne_pending l)]

lemma parseHex_checked_lt {l : List Char} {n : Nat}
    (h : (if l.length = 0 ∨ 16 < l.length then none else parseHexDigits 0 l) = some n) :
    n < 2 ^ 64 := by
  split at h
  · exact absurd h (by simp)
  · rename_i hc
    push_neg at hc
    calc n < (0 + 1) * 16 ^ l.length := parseHexDigits_lt h
      _ = 16 ^ l.length := by ring
      _ ≤ 16 ^ 16 := Nat.pow_le_pow_right (by norm_num) (by omega)
      _ = 2 ^ 64 := by norm_num

lemma deserializeU64_lt {s : String} {n : Nat} (h : deserializeU64 s = some n) :
    n < 2 ^ 64 := by
  simp only [deserializeU64] at h
  exact parseHex_checked_lt h

/-- Claim C1: decoding a block-reference string maps the five literals
"committed", "finalized", "latest", "earliest", "pending" case-sensitively to
their variants; any other string goes to the hexadecimal 64-bit deserializer,
yielding `Number n` (with `n` in 64-bit range) exactly when that parse
succeeds; on any parse failure (malformed hex such as "0x", out-of-range
input, a non-alias non-hex string such as "zzz" or the wrongly cased
"Latest") the decode fails with a deserialization error carrying the
offending token, never a default variant. -/
theorem decode_block_reference_spec :
    (visit_str "committed" = .ok .Committed ∧
      visit_str "finalized" = .ok .Finalized ∧
      visit_str "latest" = .ok .Latest ∧
      visit_str "earliest" = .ok .Earliest ∧
      visit_str "pending" = .ok .Pending) ∧
    (∀ s : String, s ≠ "committed" → s ≠ "finalized" → s ≠ "latest" →
      s ≠ "earliest" → s ≠ "pending" →
      visit_str s =
        match deserializeU64 s with
        | some n => .ok (.Number n)
        | none => .error s) ∧
    (∀ (s : String) (n : U64), visit_str s = .ok (.Number n) →
      deserializeU64 s = some n ∧ n < 2 ^ 64) ∧
    visit_str "Latest" = .error "Latest" ∧
    visit_str "0x" = .error "0x" ∧
    visit_str "0x10000000000000000" = .error "0x10000000000000000" ∧
    visit_str "zzz" = .error "zzz" := by
  refine ⟨⟨by decide, by decide, by decide, by decide, by decide⟩, ?_, ?_,
    by decide, by decide, by decide, by decide⟩
  · intro s h1 h2 h3 h4 h5
    rw [visit_str, if_neg h1, if_neg h2, if_neg h3, if_neg h4, if_neg h5]
  · intro s n h
    simp only [visit_str] at h
    split_ifs at h with h1 h2 h3 h4 h5
    · exact absurd h (by simp)
    · exact absurd h (by simp)
    · exact absurd h (by simp)
    · exact absurd h (by simp)
    · exact absurd h (by simp)
    · cases hd : deserializeU64 s with
      | none => rw [hd] at h; exact absurd h (by simp)
      | some m =>
        rw [hd] at h
        simp only [Except.ok.injEq, BlockNumber.Number.injEq] at h
        subst h
        exact ⟨rfl, deserializeU64_lt hd⟩

/-- Witness for C1 at the concrete non-alias token "0x2a". -/
theorem decode_block_reference_spec_witness :
    visit_str "0x2a" =
      match deserializeU64 "0x2a" with
      | some n => .ok (.Number n)
      | none => .error "0x2a" :=
  decode_block_reference_spec.2.1 "0x2a" (by decide) (by decide) (by decide)
    (by decide) (by decide)

/-- Claim C2: encoding a block reference always yields a single string:
`Number n` encodes as a `0x`-prefixed lowercase hexadecimal string with no
leading zeros beyond a single `0` for the value zero, and the five aliases
encode as their literals. -/
theorem encode_block_reference_spec :
    (BlockNumber.serialize .Committed = "committed" ∧
      BlockNumber.serialize .Finalized = "finalized" ∧
      BlockNumber.serialize .Latest = "latest" ∧
      BlockNumber.serialize .Earliest = "earliest" ∧
      BlockNumber.serialize .Pending = "pending") ∧
    BlockNumber.serialize (.Number 0) = "0x0" ∧
    BlockNumber.serialize (.Number 42) = "0x2a" ∧
    ∀ n : U64, ∃ l : List Char,
      BlockNumber.serialize (.Number n) = String.mk ('0' :: 'x' :: l) ∧
      l ≠ [] ∧
      (∀ c ∈ l, c ∈ lowercaseHexAlphabet) ∧
      (n = 0 → l = ['0']) ∧
      (n ≠ 0 → l.head? ≠ some '0') := by
  refine ⟨⟨rfl, rfl, rfl, rfl, rfl⟩, by decide, by decide, ?_⟩
  intro n
  refine ⟨Nat.toDigits 16 n, rfl, ?_, ?_, ?_, ?_⟩
  · by_cases hn : n = 0
    · subst hn; decide
    · rw [toDigits_eq_digits hn]
      simp [Nat.digits_ne_nil_iff_ne_zero.mpr hn]
  · intro c hc
    by_cases hn : n = 0
    · subst hn
      rw [show Nat.toDigits 16 0 = ['0'] from rfl] at hc
      simp only [List.mem_singleton] at hc
      subst hc
      decide
    · rw [toDigits_eq_digits hn] at hc
      simp only [List.mem_reverse, List.mem_map] at hc
      obtain ⟨d, hd, rfl⟩ := hc
      exact digitChar_mem_hex_all d (Nat.digits_lt_base (by norm_num) hd)
  · intro hn; subst hn; rfl
  · intro hn hcontra
    have hne : Nat.digits 16 n ≠ [] := Nat.digits_ne_nil_iff_ne_zero.mpr hn
    rw [toDigits_eq_digits hn, List.head?_reverse, List.getLast?_map,
      List.getLast?_eq_getLast _ hne] at hcontra
    simp only [Option.map_some', Option.some.injEq] at hcontra
    have hmem : (Nat.digits 16 n).getLast hne ∈ Nat.digits 16 n := List.getLast_mem hne
    exact digitChar_ne_zero_all _ (Nat.digits_lt_base (by norm_num) hmem)
      (Nat.getLast_digit_ne_zero 16 hn) hcontra

/-- Witness for C2 at the concrete value 42. -/
theorem encode_block_reference_spec_witness :
    ∃ l : List Char,
      BlockNumber.serialize (.Number 42) = String.mk ('0' :: 'x' :: l) ∧
      l ≠ [] ∧
      (∀ c ∈ l, c ∈ lowercaseHexAlphabet) ∧
      ((42 : U64) = 0 → l = ['0']) ∧
      ((42 : U64) ≠ 0 → l.head? ≠ some '0') :=
  encode_block_reference_spec.2.2.2 42

/-- Claim C3: round trip of the block-number codec: for each of the five
alias literals, decoding and then encoding yields the original literal; and
for every 64-bit `n`, decoding the string produced by encoding `Number n`
yields `Number n` exactly. -/
theorem block_reference_roundtrip :
    ((visit_str "committed").map BlockNumber.serialize = .ok "committed" ∧
      (visit_str "finalized").map BlockNumber.serialize = .ok "finalized" ∧
      (visit_str "latest").map BlockNumber.serialize = .ok "latest" ∧
      (visit_str "earliest").map BlockNumber.serialize = .ok "earliest" ∧
      (visit_str "pending").map BlockNumber.serialize = .ok "pending") ∧
    ∀ n : U64, n < 2 ^ 64 →
      visit_str (BlockNumber.serialize (.Number n)) = .ok (.Number n) := by
  refine ⟨⟨by decide, by decide, by decide, by decide, by decide⟩, ?_⟩
  intro n hn
  show visit_str (String.mk ('0' :: 'x' :: Nat.toDigits 16 n)) = _
  rw [visit_str_mk_hex, deserializeU64_serialized hn]

/-- Witness for C3 at the concrete value 42. -/
theorem block_reference_roundtrip_witness :
    visit_str (BlockNumber.serialize (.Number 42)) = .ok (.Number 42) :=
  block_reference_roundtrip.2 42 (by norm_num)

/-- Claim C8 (counterexample): decoding "pending" does not produce the
`Latest` variant; the claim that the decoded value equals `Latest` as a
`BlockNumber` value is false. -/
theorem pending_decode_not_latest : visit_str "pending" ≠ .ok BlockNumber.Latest := by
  decide

/-- Claim C8 (amended): decoding "pending" yields the distinct `Pending`
variant, which the source documents as an alias of `Latest` but which is not
equal, as a value, to the `Latest` variant produced by decoding "latest". -/
theorem pending_decode_distinct_variant :
    visit_str "pending" = .ok .Pending ∧ visit_str "latest" = .ok .Latest ∧
      BlockNumber.Pending ≠ BlockNumber.Latest :=
  ⟨by decide, by decide, by decide⟩

/-- All fields of a `Block` except the transaction list, for comparing the
two builder variants field by field. -/
structure BlockMeta where
  hash : Option H256
  parent_hash : H256
  uncles_hash : H256
  author : H160
  state_root : H256
  transactions_root : H256
  receipts_root : H256
  number : Option U64
  gas_used : U256
  gas_limit : U256
  extra_data : Bytes
  logs_bloom : Option H2048
  timestamp : U256
  difficulty : U256
  total_difficulty : Option U256
  seal_fields : List Bytes
  uncles : List H256
  size : Option U256
  mix_hash : Option H256
  nonce : Option H64
deriving DecidableEq

/-- Projection of a `Block` onto everything but its transaction list. -/
def Block.meta {T : Type} (b : Block T) : BlockMeta :=
  { hash := b.hash
    parent_hash := b.parent_hash
    uncles_hash := b.uncles_hash
    author := b.author
    state_root := b.state_root
    transactions_root := b.transactions_root
    receipts_root := b.receipts_root
    number := b.number
    gas_used := b.gas_used
    gas_limit := b.gas_limit
    extra_data := b.extra_data
    logs_bloom := b.logs_bloom
    timestamp := b.timestamp
    difficulty := b.difficulty
    total_difficulty := b.total_difficulty
    seal_fields := b.seal_fields
    uncles := b.uncles
    size := b.size
    mix_hash := b.mix_hash
    nonce := b.nonce }

/-- Claim C4: every block constructed by either builder stores the hash
argument identically in the block hash, state_root, transactions_root and
receipts_root fields; uncles_hash and mix_hash are the zero hash; author is
the zero address; gas_used is 0; gas_limit is 50000; extra_data is empty;
logs_bloom is absent; difficulty is 0; total_difficulty is present and 0;
seal_fields and uncles are empty; nonce is the zero 8-byte value; size is
absent; and number is the block index widened into the 64-bit quantity. -/
theorem new_block_constant_fields (h p : H256) (bn ts : Nat)
    (hs : List H256) (txs : List Transaction) :
    BlockInfo.new_with_hashes h p bn ts hs = .BlockWithHashes
      { hash := some h
        parent_hash := p
        uncles_hash := H256.zero
        author := H160.zero
        state_root := h
        transactions_root := h
        receipts_root := h
        number := some bn
        gas_used := 0
        gas_limit := 50000
        extra_data := []
        logs_bloom := none
        timestamp := ts
        difficulty := 0
        total_difficulty := some 0
        seal_fields := []
        uncles := []
        transactions := hs
        size := none
        mix_hash := some H256.zero
        nonce := some H64.zero } ∧
    BlockInfo.new_with_txs h p bn ts txs = .BlockWithTxs
      { hash := some h
        parent_hash := p
        uncles_hash := H256.zero
        author := H160.zero
        state_root := h
        transactions_root := h
        receipts_root := h
        number := some bn
        gas_used := 0
        gas_limit := 50000
        extra_data := []
        logs_bloom := none
        timestamp := ts
        difficulty := 0
        total_difficulty := some 0
        seal_fields := []
        uncles := []
        transactions := txs
        size := none
        mix_hash := some H256.zero
        nonce := some H64.zero } :=
  ⟨rfl, rfl⟩

/-- Claim C6: given identical hash, parent hash, block index and timestamp
arguments, the two builders produce blocks that agree on every field except
the transactions list. -/
theorem builders_agree_except_transactions (h p : H256) (bn ts : Nat)
    (hs : List H256) (txs : List Transaction) :
    ∃ (b1 : Block H256) (b2 : Block Transaction),
      BlockInfo.new_with_hashes h p bn ts hs = .BlockWithHashes b1 ∧
      BlockInfo.new_with_txs h p bn ts txs = .BlockWithTxs b2 ∧
      Block.meta b1 = Block.meta b2 :=
  ⟨_, _, rfl, rfl, rfl⟩

/-- Claim C10: both builders pass their non-constant arguments through
unchanged: parent_hash equals the parent-hash argument, timestamp equals the
timestamp argument, and the transactions list is stored exactly as given. -/
theorem builders_pass_arguments_through (h p : H256) (bn ts : Nat)
    (hs : List H256) (txs : List Transaction) :
    ∃ (b1 : Block H256) (b2 : Block Transaction),
      BlockInfo.new_with_hashes h p bn ts hs = .BlockWithHashes b1 ∧
      BlockInfo.new_with_txs h p bn ts txs = .BlockWithTxs b2 ∧
      b1.parent_hash = p ∧ b2.parent_hash = p ∧
      b1.timestamp = ts ∧ b2.timestamp = ts ∧
      b1.transactions = hs ∧ b2.transactions = txs :=
  ⟨_, _, rfl, rfl, rfl, rfl, rfl, rfl, rfl, rfl⟩

lemma mapSlice32_total {o : Option Bytes} (h : ∀ b ∈ o, b.length = 32) :
    ∃ bh, mapSlice32 o = some bh := by
  cases o with
  | none => exact ⟨none, rfl⟩
  | some l =>
    have hl : l.length = 32 := h l (by simp)
    exact ⟨some ⟨l, hl⟩, by simp [mapSlice32, H256.from_slice, hl]⟩

lemma mapSlice20_total {o : Option Bytes} (h : ∀ b ∈ o, b.length = 20) :
    ∃ ta, mapSlice20 o = some ta := by
  cases o with
  | none => exact ⟨none, rfl⟩
  | some l =>
    have hl : l.length = 20 := h l (by simp)
    exact ⟨some ⟨l, hl⟩, by simp [mapSlice20, H160.from_slice, hl]⟩

lemma tx_data_from_storage_eq (tx : Web3TxData) (hfa : tx.from_account.length = 20)
    (hth : tx.tx_hash.length = 32) {bh : Option H256} {ta : Option H160}
    (hbh : mapSlice32 tx.block_hash = some bh)
    (hta : mapSlice20 tx.to_account = some ta) :
    tx_data_from_storage tx = some
      { block_hash := bh
        block_number := tx.block_number.map u32_cast
        block_index := tx.block_index.map u32_cast
        from_addr := ⟨tx.from_account, hfa⟩
        to_addr := ta
        nonce := u32_cast tx.nonce
        tx_hash := ⟨tx.tx_hash, hth⟩ } := by
  simp [tx_data_from_storage, hbh, hta, H160.from_slice, H256.from_slice, hfa, hth]

lemma tx_receipt_from_storage_receipt_eq (r : Web3TxReceipt)
    (hb : r.block_hash.length = 32) (ht : r.tx_hash.length = 32) :
    tx_receipt_from_storage_receipt r = some
      { transaction_hash := ⟨r.tx_hash, ht⟩
        transaction_index := r.block_index.getD U64.MAX
        block_hash := some ⟨r.block_hash, hb⟩
        block_number := some r.block_number
        cumulative_gas_used := 0
        gas_used := some 0
        contract_address := none
        logs := []
        status := some (if r.success then 1 else 0)
        root := some ⟨r.block_hash, hb⟩
        logs_bloom := H2048.zero } := by
  simp [tx_receipt_from_storage_receipt, H256.from_slice, hb, ht]

/-- Claim C5: for every receipt record whose byte fields are well-sized, the
receipt adapter produces exactly: status present and 1/0 from the success
flag; transaction_index the in-block index or the maximum 64-bit sentinel;
block_hash and root both the widened block-hash bytes; block_number always
present; cumulative_gas_used and gas_used zero; contract_address absent;
logs empty; logs_bloom the zero bloom filter. -/
theorem receipt_adapter_spec (r : Web3TxReceipt)
    (hb : r.block_hash.length = 32) (ht : r.tx_hash.length = 32) :
    tx_receipt_from_storage_receipt r = some
      { transaction_hash := ⟨r.tx_hash, ht⟩
        transaction_index := r.block_index.getD U64.MAX
        block_hash := some ⟨r.block_hash, hb⟩
        block_number := some r.block_number
        cumulative_gas_used := 0
        gas_used := some 0
        contract_address := none
        logs := []
        status := some (if r.success then 1 else 0)
        root := some ⟨r.block_hash, hb⟩
        logs_bloom := H2048.zero } :=
  tx_receipt_from_storage_receipt_eq r hb ht

/-- Witness for C5 at a concrete confirmed successful receipt with no
in-block index. -/
theorem receipt_adapter_spec_witness :
    tx_receipt_from_storage_receipt
      { tx_hash := List.replicate 32 2
        block_index := none
        block_hash := List.replicate 32 1
        block_number := 7
        success := true } = some
      { transaction_hash := ⟨List.replicate 32 2, List.length_replicate ..⟩
        transaction_index := U64.MAX
        block_hash := some ⟨List.replicate 32 1, List.length_replicate ..⟩
        block_number := some 7
        cumulative_gas_used := 0
        gas_used := some 0
        contract_address := none
        logs := []
        status := some 1
        root := some ⟨List.replicate 32 1, List.length_replicate ..⟩
        logs_bloom := H2048.zero } :=
  receipt_adapter_spec
    { tx_hash := List.replicate 32 2
      block_index := none
      block_hash := List.replicate 32 1
      block_number := 7
      success := true } (List.length_replicate ..) (List.length_replicate ..)

/-- Claim C7: the TxData adapter performs no range validation when narrowing
the 64-bit storage integers block_number, block_index and nonce to the
32-bit wire fields: each output value is the input value modulo `2 ^ 32`
(silent truncation), and presence of the optional fields is preserved. -/
theorem tx_data_adapter_narrowing (tx : Web3TxData)
    (hfa : tx.from_account.length = 20) (hth : tx.tx_hash.length = 32)
    (hbh : ∀ b ∈ tx.block_hash, b.length = 32)
    (hta : ∀ b ∈ tx.to_account, b.length = 20) :
    ∃ out : TxData, tx_data_from_storage tx = some out ∧
      out.block_number = tx.block_number.map (fun v => v % 2 ^ 32) ∧
      out.block_index = tx.block_index.map (fun v => v % 2 ^ 32) ∧
      out.nonce = tx.nonce % 2 ^ 32 ∧
      out.block_number.isSome = tx.block_number.isSome ∧
      out.block_index.isSome = tx.block_index.isSome := by
  obtain ⟨bh, hbh2⟩ := mapSlice32_total hbh
  obtain ⟨ta, hta2⟩ := mapSlice20_total hta
  refine ⟨_, tx_data_from_storage_eq tx hfa hth hbh2 hta2, rfl, rfl, rfl, ?_, ?_⟩
  · cases tx.block_number <;> rfl
  · cases tx.block_index <;> rfl

/-- Witness for C7 at a concrete record whose block_number and nonce exceed
the 32-bit range and are silently truncated. -/
theorem tx_data_adapter_narrowing_witness :
    ∃ out : TxData,
      tx_data_from_storage
        { block_hash := some (List.replicate 32 8)
          block_number := some (2 ^ 32 + 9)
          block_index := some 3
          from_account := List.replicate 20 4
          to_account := none
          nonce := 2 ^ 32 + 5
          tx_hash := List.replicate 32 6 } = some out ∧
      out.block_number = (some (2 ^ 32 + 9)).map (fun v => v % 2 ^ 32) ∧
      out.block_index = (some 3).map (fun v => v % 2 ^ 32) ∧
      out.nonce = (2 ^ 32 + 5) % 2 ^ 32 ∧
      out.block_number.isSome = (some (2 ^ 32 + 9) : Option Nat).isSome ∧
      out.block_index.isSome = (some 3 : Option Nat).isSome :=
  tx_data_adapter_narrowing _ (List.length_replicate ..) (List.length_replicate ..)
    (by simp) (by simp)

/-- Claim C9: under the precondition that byte-sequence fields have exactly
their fixed lengths (20 bytes for addresses, 32 for hashes), both adapters
are total: the panic branch of the fixed-width widening is unreachable and a
well-formed output record is returned for every such input. -/
theorem adapters_total_on_wellformed :
    (∀ tx : Web3TxData, tx.from_account.length = 20 → tx.tx_hash.length = 32 →
      (∀ b ∈ tx.block_hash, b.length = 32) → (∀ b ∈ tx.to_account, b.length = 20) →
      (tx_data_from_storage tx).isSome = true) ∧
    (∀ r : Web3TxReceipt, r.block_hash.length = 32 → r.tx_hash.length = 32 →
      (tx_receipt_from_storage_receipt r).isSome = true) := by
  constructor
  · intro tx hfa hth hbh hta
    obtain ⟨bh, hbh2⟩ := mapSlice32_total hbh
    obtain ⟨ta, hta2⟩ := mapSlice20_total hta
    rw [tx_data_from_storage_eq tx hfa hth hbh2 hta2]
    rfl
  · intro r hb ht
    rw [tx_receipt_from_storage_receipt_eq r hb ht]
    rfl

/-- Witness for C9 at concrete well-sized records for both adapters. -/
theorem adapters_total_on_wellformed_witness :
    (tx_data_from_storage
      { block_hash := none
        block_number := none
        block_index := none
        from_account := List.replicate 20 1
        to_account := some (List.replicate 20 2)
        nonce := 5
        tx_hash := List.replicate 32 3 }).isSome = true ∧
    (tx_receipt_from_storage_receipt
      { tx_hash := List.replicate 32 4
        block_index := some 2
        block_hash := List.replicate 32 5
        block_number := 9
        success := false }).isSome = true :=
  ⟨adapters_total_on_wellformed.1 _ (List.length_replicate ..)
      (List.length_replicate ..) (by simp) (by simp),
    adapters_total_on_wellformed.2 _ (List.length_replicate ..)
      (List.length_replicate ..)⟩
